import Mathlib

/-!
Verification of the Rhine water level monitor (Rheinpegel web app).

The development shallowly embeds the JavaScript modules of the repository:

* `js/api.js` — the fetch client (`fetchCurrentLevel`, `isCorsError`), the
  XML-response parser (`parseXMLResponse`), the German decimal conversion
  (`convertGermanDecimal`, built on a model of JavaScript `parseFloat`) and
  the German date/time parser (`parseGermanDateTime`, built on models of the
  two regular expressions the source matches with).
* `js/storage.js` — the bounded history store (`saveReading`,
  `getHistoricalData`, `getLatestReading`, `cleanOldData`, `getStorageData`,
  `createEmptyStorage`, `setStorageData`).
* `js/app.js` — the alert-tier classifier (`ALERT_LEVELS`, `getAlertLevel`).

JavaScript numbers are modelled as exact rationals (`ℚ`) where fractional
values occur and as integers (`Int`) for timestamps and centimeter levels
(every level the code stores is `Math.round` output).  Platform facilities
are parameters: `localStorage` is a `StorageSlot` value threaded through the
store operations, `Date.now()` and the local-time `Date` constructor are the
fields of a `JsDateEnv`, and the network is a `transport` function given to
the fetch client.
-/

namespace RheinPegel

/-! ### Characters and digit strings -/

/-- Digit list to the number it denotes, most significant first (the value
`parseInt` gives a string of decimal digits). -/
def digitsToNat (l : List Char) : Nat :=
  l.foldl (fun acc c => 10 * acc + (c.toNat - 48)) 0

/-- Whitespace as JavaScript regular expressions and `String.prototype.trim`
see it: space, tab, line feed, carriage return, vertical tab, form feed and
no-break space.  (The remaining Unicode space code points are not modelled;
no input in this development contains them.) -/
def isJsSpace (c : Char) : Bool :=
  c == ' ' || c == '\t' || c == '\n' || c == '\r' || c == '\x0b' ||
    c == '\x0c' || c == ' '

/-- Word characters of the regex class backslash-w: ASCII letters, digits and
underscore. -/
def isWordChar (c : Char) : Bool :=
  c.isAlpha || c.isDigit || c == '_'

/-- Model of `String.prototype.trim`: drop leading and trailing whitespace. -/
def jsTrim (l : List Char) : List Char :=
  ((l.dropWhile isJsSpace).reverse.dropWhile isJsSpace).reverse

/-- Model of `str.replace(',', '.')`: a string-pattern `replace` rewrites only
the first occurrence. -/
def replaceFirstComma : List Char → List Char
  | [] => []
  | c :: t => if c = ',' then '.' :: t else c :: replaceFirstComma t

/-! ### A model of JavaScript `parseFloat`

`parseFloat` skips leading whitespace, then reads the longest prefix that is
a signed decimal literal (digits, an optional fraction, an optional
exponent), ignores the rest of the string, and yields `NaN` (`none` here)
when no digit was read.  The value is exact here (a rational); the IEEE
rounding of the actual engine never changes any result this development
states, because every stated input denotes a short decimal whose scaled
value is recovered exactly by `Math.round`.  The literals `Infinity` and
`-Infinity`, which `parseFloat` also accepts, are not modelled; no claim
input involves them. -/

/-- Exponent part after the letter `e`/`E`: an optional sign and digits.  If
no digit follows, `parseFloat` backtracks and the exponent contributes
nothing (for example `parseFloat("3e")` is `3`), modelled as `0`. -/
def parseExpPart (t : List Char) : Int :=
  let neg := t.head? = some '-'
  let t1 := if t.head? = some '-' ∨ t.head? = some '+' then t.tail else t
  let ds := t1.takeWhile Char.isDigit
  if ds = [] then 0
  else if neg then -(digitsToNat ds : Int) else (digitsToNat ds : Int)

/-- The numeric value `parseFloat` reads off the front of a string, or `none`
for `NaN`. -/
def parseFloatQ (l : List Char) : Option ℚ :=
  let l1 := l.dropWhile isJsSpace
  let sgn : ℚ := if l1.head? = some '-' then -1 else 1
  let l2 := if l1.head? = some '-' ∨ l1.head? = some '+' then l1.tail else l1
  let intPart := l2.takeWhile Char.isDigit
  let l3 := l2.dropWhile Char.isDigit
  let hasDot := l3.head? = some '.'
  let fracPart := if hasDot then l3.tail.takeWhile Char.isDigit else []
  let l4 := if hasDot then l3.tail.dropWhile Char.isDigit else l3
  if intPart = [] ∧ fracPart = [] then none
  else
    let mant : ℚ :=
      (digitsToNat intPart : ℚ) + (digitsToNat fracPart : ℚ) / (10 : ℚ) ^ fracPart.length
    let e : Int :=
      if l4.head? = some 'e' ∨ l4.head? = some 'E' then parseExpPart l4.tail else 0
    some (sgn * (mant * (10 : ℚ) ^ e))

/-- Model of `Math.round`: round to the nearest integer, halves toward
positive infinity. -/
def jsRound (q : ℚ) : Int :=
  ⌊q + 1 / 2⌋

/-! ### Error taxonomy of the parser (`js/api.js`)

The source throws `Error` objects whose messages distinguish the failure;
the model keeps the kind.  `invalidDate`, `unknownMonth` and `invalidTime`
arise only inside `parseGermanDateTime`, whose `catch` swallows them. -/

inductive ParseErr where
  | missingFields
  | invalidNumber
  | invalidDate
  | unknownMonth
  | invalidTime
deriving DecidableEq

/-- The record `parseXMLResponse` returns. -/
structure Reading where
  waterLevel : Int
  date : String
  time : String
  timestamp : Int
  graphic : Option String
deriving DecidableEq

/-- The XML document after DOM extraction: `querySelector('X')?.textContent`
for each of the four elements.  `none` models a missing element; `some ""`
an empty one.  (The `DOMParser` itself, and its `parsererror` check, are the
platform's; a document that fails to parse never reaches the field checks.) -/
structure XmlDoc where
  datum : Option String
  uhrzeit : Option String
  pegel : Option String
  grafik : Option String
deriving DecidableEq

/-- Ambient date facilities of `js/api.js`: `mkTime y m d hh mm` is
`new Date(y, m, d, hh, mm).getTime()` (local time, hence environment
dependent) and `now` is `Date.now()`. -/
structure JsDateEnv where
  mkTime : Nat → Nat → Nat → Nat → Nat → Int
  now : Int

/-! ### `convertGermanDecimal` (api.js lines 144-167)

Trim, replace the first comma by a dot, `parseFloat`, throw on `NaN`,
multiply by 100 and `Math.round`.  The range check on `[0, 2000]` only logs
a console warning; out-of-range values are returned. -/

def convertGermanDecimal (s : String) : Except ParseErr Int :=
  match parseFloatQ (replaceFirstComma (jsTrim s.data)) with
  | none => Except.error ParseErr.invalidNumber
  | some meters => Except.ok (jsRound (meters * 100))

/-! ### The date regular expression (api.js line 185)

`dateStr.match(/(\d+)\.\s+(\w+)\s+(\d{4})/)` — an unanchored search.  At a
fixed start position each greedy piece is followed by a piece whose
character class is disjoint from its own, so maximal munch without
backtracking is exactly the regex semantics; the search tries every start
position left to right. -/

/-- Match the date pattern at the start of `l`: digits, a dot, whitespace, a
word, whitespace, four digits.  Returns (day digits, month word, year
digits). -/
def matchDateAt (l : List Char) : Option (List Char × List Char × List Char) :=
  let d := l.takeWhile Char.isDigit
  let r1 := l.dropWhile Char.isDigit
  if d = [] then none
  else
    match r1 with
    | '.' :: r2 =>
      let w1 := r2.takeWhile isJsSpace
      let r3 := r2.dropWhile isJsSpace
      if w1 = [] then none
      else
        let m := r3.takeWhile isWordChar
        let r4 := r3.dropWhile isWordChar
        if m = [] then none
        else
          let w2 := r4.takeWhile isJsSpace
          let r5 := r4.dropWhile isJsSpace
          if w2 = [] then none
          else
            match r5 with
            | y1 :: y2 :: y3 :: y4 :: _ =>
              if y1.isDigit ∧ y2.isDigit ∧ y3.isDigit ∧ y4.isDigit then
                some (d, m, [y1, y2, y3, y4])
              else none
            | _ => none
    | _ => none

/-- Unanchored search for the date pattern. -/
def searchDate : List Char → Option (List Char × List Char × List Char)
  | [] => matchDateAt []
  | c :: t =>
    match matchDateAt (c :: t) with
    | some r => some r
    | none => searchDate t

/-! ### The time regular expression (api.js line 200)

`timeStr.match(/(\d{1,2}):(\d{2})/)` — the two-digit hour is tried first,
then the regex backtracks to one digit. -/

/-- One-digit-hour alternative: the rest must start with a colon and two
digits. -/
def matchTimeOneDigit (a : Char) (rest : List Char) : Option (List Char × List Char) :=
  match rest with
  | ':' :: c :: d :: _ =>
    if c.isDigit ∧ d.isDigit then some ([a], [c, d]) else none
  | _ => none

/-- Match the time pattern at the start of `l`. -/
def matchTimeAt (l : List Char) : Option (List Char × List Char) :=
  match l with
  | [] => none
  | a :: rest =>
    if a.isDigit then
      match rest with
      | b :: ':' :: c :: d :: _ =>
        if b.isDigit ∧ c.isDigit ∧ d.isDigit then some ([a, b], [c, d])
        else matchTimeOneDigit a rest
      | _ => matchTimeOneDigit a rest
    else none

/-- Unanchored search for the time pattern. -/
def searchTime : List Char → Option (List Char × List Char)
  | [] => none
  | c :: t =>
    match matchTimeAt (c :: t) with
    | some r => some r
    | none => searchTime t

/-! ### `parseGermanDateTime` (api.js lines 175-218) -/

/-- The German month names object, month name to zero-based index. -/
def monthNames : List (String × Nat) :=
  [("Januar", 0), ("Februar", 1), ("März", 2), ("April", 3),
   ("Mai", 4), ("Juni", 5), ("Juli", 6), ("August", 7),
   ("September", 8), ("Oktober", 9), ("November", 10), ("Dezember", 11)]

/-- Own-property lookup in the month object.  (A JavaScript object literal
also exposes the `Object.prototype` member names — `constructor`,
`toString` and five others — whose lookup is not `undefined`; for those the
source would build an invalid `Date` with a `NaN` timestamp instead of
throwing.  The theorems about unknown months exclude those seven names.) -/
def monthLookup (m : String) : Option Nat :=
  (monthNames.find? (fun p => p.1 == m)).map Prod.snd

/-- Member names every object literal inherits from `Object.prototype`. -/
def protoObjectKeys : List String :=
  ["constructor", "hasOwnProperty", "isPrototypeOf", "propertyIsEnumerable",
   "toLocaleString", "toString", "valueOf"]

/-- The body of the `try` block of `parseGermanDateTime`: match the date,
look the month up, match the time, build the timestamp. -/
def parseGermanDateTimeCore (dateStr timeStr : String) (env : JsDateEnv) :
    Except ParseErr Int :=
  match searchDate dateStr.data with
  | none => Except.error ParseErr.invalidDate
  | some (dayDigits, monthWord, yearDigits) =>
    match monthLookup (String.mk monthWord) with
    | none => Except.error ParseErr.unknownMonth
    | some month =>
      match searchTime timeStr.data with
      | none => Except.error ParseErr.invalidTime
      | some (hourDigits, minuteDigits) =>
        Except.ok (env.mkTime (digitsToNat yearDigits) month (digitsToNat dayDigits)
          (digitsToNat hourDigits) (digitsToNat minuteDigits))

/-- `parseGermanDateTime`: its `catch` returns `Date.now()` on any failure of
the body, so the function is total and never throws. -/
def parseGermanDateTime (dateStr timeStr : String) (env : JsDateEnv) : Int :=
  match parseGermanDateTimeCore dateStr timeStr env with
  | Except.ok t => t
  | Except.error _ => env.now

/-! ### `parseXMLResponse` (api.js lines 97-137) -/

/-- Falsy test `!x` on an extracted text field: missing (`undefined`) or the
empty string. -/
def falsyField : Option String → Bool
  | none => true
  | some s => s == ""

/-- String-level trim mirroring `jsTrim`. -/
def jsTrimStr (s : String) : String :=
  String.mk (jsTrim s.data)

/-- Parse the extracted document: validate the three required fields with the
falsy test (untrimmed), convert the level, build the timestamp, and trim the
fields stored on the `Reading`.  `grafik?.trim() || null` maps an absent or
whitespace-only graphic to `none`. -/
def parseXMLResponse (doc : XmlDoc) (env : JsDateEnv) : Except ParseErr Reading :=
  match doc.datum, doc.uhrzeit, doc.pegel with
  | some datum, some uhrzeit, some pegel =>
    if datum = "" ∨ uhrzeit = "" ∨ pegel = "" then Except.error ParseErr.missingFields
    else
      match convertGermanDecimal pegel with
      | Except.error e => Except.error e
      | Except.ok waterLevel =>
        Except.ok
          { waterLevel := waterLevel
            date := jsTrimStr datum
            time := jsTrimStr uhrzeit
            timestamp := parseGermanDateTime datum uhrzeit env
            graphic :=
              match doc.grafik with
              | none => none
              | some g => if jsTrimStr g = "" then none else some (jsTrimStr g) }
  | _, _, _ => Except.error ParseErr.missingFields

/-! ### The fetch client (api.js lines 40-90 and 225-229) -/

/-- An error object as the fetch loop sees one. -/
structure JsError where
  name : String
  message : String
deriving DecidableEq

/-- Containment of `sub` in a character list: a prefix test at every start
position. -/
def listIncludes : List Char → List Char → Bool
  | sub, [] => sub.isEmpty
  | sub, c :: t => sub.isPrefixOf (c :: t) || listIncludes sub t

/-- Substring test, `String.prototype.includes`. -/
def strIncludes (s sub : String) : Bool :=
  listIncludes sub.data s.data

/-- CORS-shaped error heuristic of `isCorsError`. -/
def isCorsError (e : JsError) : Bool :=
  strIncludes e.message "CORS" || strIncludes e.message "Network request failed" ||
    (e.name == "TypeError" && strIncludes e.message "Failed to fetch")

/-- One pass of the retry loop of `fetchCurrentLevel`.  `transport a p` is
the outcome of attempt `a` with the CORS-proxy flag `p` (the flag selects
the request URL); it covers the fetch, the status check and the parse, which
share one `catch`.  `fuel` counts the attempts still allowed, `attempt` the
current attempt number, `useCorsProxy` the latch, `lastError` the error of
the previous attempt.  The delays between attempts do not affect the
outcome and are not modelled.  The pair returned is (result, final flag). -/
def fetchAttempts (transport : Nat → Bool → Except JsError Reading) :
    Nat → Nat → Bool → JsError → Except JsError Reading × Bool
  | 0, _, useCorsProxy, lastError => (Except.error lastError, useCorsProxy)
  | fuel + 1, attempt, useCorsProxy, _ =>
    match transport attempt useCorsProxy with
    | Except.ok data => (Except.ok data, useCorsProxy)
    | Except.error e =>
      let next :=
        if isCorsError e = true ∧ useCorsProxy = false ∧ attempt = 1 then true
        else useCorsProxy
      fetchAttempts transport fuel (attempt + 1) next e

/-- Retries of `fetchCurrentLevel`. -/
def maxRetries : Nat := 3

/-- `fetchCurrentLevel` on a fresh client: `useCorsProxy` starts `false` (the
constructor), up to `maxRetries` attempts. -/
def fetchCurrentLevel (transport : Nat → Bool → Except JsError Reading) :
    Except JsError Reading × Bool :=
  fetchAttempts transport maxRetries 1 false { name := "", message := "" }

/-! ### The bounded history store (`js/storage.js`) -/

/-- An entry as `saveReading` persists it: exactly the four fields the object
literal at storage.js lines 27-32 carries — the `graphic` field of the
fetched reading is not among them. -/
structure StoredReading where
  waterLevel : Int
  date : String
  time : String
  timestamp : Int
deriving DecidableEq

/-- The projection `saveReading` applies to its argument. -/
def toStored (r : Reading) : StoredReading :=
  { waterLevel := r.waterLevel, date := r.date, time := r.time, timestamp := r.timestamp }

/-- The persisted structure. -/
structure StorageData where
  version : String
  readings : List StoredReading
  lastUpdated : Option Int
deriving DecidableEq

/-- The `localStorage` slot under the fixed key: absent, a string
`JSON.parse` rejects, or a parsed structure. -/
inductive StorageSlot where
  | absent
  | malformed
  | value (s : StorageData)
deriving DecidableEq

/-- Schema version (`this.version`). -/
def storageVersion : String := "1.0.0"

/-- Age bound in milliseconds (`this.maxAge`). -/
def maxAge : Int := 24 * 60 * 60 * 1000

/-- Entry bound (`this.maxEntries`). -/
def maxEntries : Nat := 1440

/-- `createEmptyStorage`. -/
def createEmptyStorage : StorageData :=
  { version := storageVersion, readings := [], lastUpdated := none }

/-- `getStorageData`: absent and unparseable slots, and slots whose version
differs from the schema version, all read as a fresh empty structure. -/
def getStorageData (slot : StorageSlot) : StorageData :=
  match slot with
  | StorageSlot.absent => createEmptyStorage
  | StorageSlot.malformed => createEmptyStorage
  | StorageSlot.value s => if s.version ≠ storageVersion then createEmptyStorage else s

/-- Descending-timestamp comparison, the comparator
`(a, b) => b.timestamp - a.timestamp`. -/
def tsGe (a b : StoredReading) : Prop := b.timestamp ≤ a.timestamp

instance : DecidableRel tsGe :=
  fun a b => inferInstanceAs (Decidable (b.timestamp ≤ a.timestamp))

instance : IsTotal StoredReading tsGe :=
  ⟨fun a b => le_total b.timestamp a.timestamp⟩

instance : IsTrans StoredReading tsGe :=
  ⟨fun _ _ _ h1 h2 => le_trans h2 h1⟩

/-- Ascending-timestamp comparison, the comparator
`(a, b) => a.timestamp - b.timestamp`. -/
def tsLe (a b : StoredReading) : Prop := a.timestamp ≤ b.timestamp

instance : DecidableRel tsLe :=
  fun a b => inferInstanceAs (Decidable (a.timestamp ≤ b.timestamp))

instance : IsTotal StoredReading tsLe :=
  ⟨fun a b => le_total a.timestamp b.timestamp⟩

instance : IsTrans StoredReading tsLe :=
  ⟨fun _ _ _ h1 h2 => le_trans h1 h2⟩

/-- Stable sort, newest first.  `Array.prototype.sort` is stable, and so is
`List.insertionSort` with a non-strict total comparison: the two agree on
every input. -/
def sortDesc (l : List StoredReading) : List StoredReading :=
  List.insertionSort tsGe l

/-- Stable sort, oldest first. -/
def sortAsc (l : List StoredReading) : List StoredReading :=
  List.insertionSort tsLe l

/-- `cleanOldData` at wall-clock `now`: drop entries older than `maxAge` and
persist.  (`lastUpdated` is untouched.) -/
def cleanOldData (now : Int) (slot : StorageSlot) : StorageSlot :=
  let storage := getStorageData slot
  StorageSlot.value
    { version := storage.version
      readings := storage.readings.filter (fun r => decide (now - maxAge ≤ r.timestamp))
      lastUpdated := storage.lastUpdated }

/-- `saveReading` at wall-clock `now`: load, append the four-field entry,
sort descending, cut to `maxEntries`, stamp `lastUpdated`, persist, then run
`cleanOldData`.  The catch-all that converts storage exceptions to `false`,
and the quota-recovery path of `setStorageData` (which keeps the newest half
and so respects every bound proved below a fortiori), concern storage-layer
failures that are outside this model; the success path is modelled. -/
def saveReading (data : Reading) (now : Int) (slot : StorageSlot) :
    Bool × StorageSlot :=
  let storage := getStorageData slot
  let pushed := storage.readings ++ [toStored data]
  let sorted := sortDesc pushed
  let limited := if maxEntries < sorted.length then sorted.take maxEntries else sorted
  let slot1 := StorageSlot.value
    { version := storage.version, readings := limited, lastUpdated := some now }
  (true, cleanOldData now slot1)

/-- `getHistoricalData` at wall-clock `now`: keep entries in the window and
sort them oldest first.  `hours` is a JavaScript number; every call site of
the repository passes a whole number of hours, and the modelled cutoff
arithmetic is the source's exactly on whole values. -/
def getHistoricalData (hours : Int) (now : Int) (slot : StorageSlot) :
    List StoredReading :=
  let storage := getStorageData slot
  let cutoffTime : Int := now - hours * (60 * 60 * 1000)
  sortAsc (storage.readings.filter (fun r => decide (cutoffTime ≤ r.timestamp)))

/-- `getLatestReading`: the first entry or null. -/
def getLatestReading (slot : StorageSlot) : Option StoredReading :=
  (getStorageData slot).readings.head?

/-! ### The classifier (`js/app.js` lines 234-265 and 488-496) -/

/-- One tier of `ALERT_LEVELS`.  `max` lives in `WithTop ℚ` so that
`Infinity` is `⊤`. -/
structure AlertLevel where
  min : ℚ
  max : WithTop ℚ
  color : String
  bgColor : String
  label : String
  labelDE : String
  icon : String
  description : String
deriving DecidableEq

/-- The three static tiers. -/
structure AlertLevels where
  NORMAL : AlertLevel
  WARNING : AlertLevel
  DANGER : AlertLevel

/-- `ALERT_LEVELS` of app.js. -/
def ALERT_LEVELS : AlertLevels where
  NORMAL :=
    { min := 0, max := ((400 : ℚ) : WithTop ℚ), color := "#4CAF50"
      bgColor := "rgba(76, 175, 80, 0.1)", label := "Normal", labelDE := "Normal"
      icon := "✓", description := "Der Wasserstand liegt im normalen Bereich." }
  WARNING :=
    { min := 400, max := ((800 : ℚ) : WithTop ℚ), color := "#FF9800"
      bgColor := "rgba(255, 152, 0, 0.1)", label := "Warning", labelDE := "Warnung"
      icon := "⚠", description := "Erhöhter Wasserstand - Vorsicht geboten." }
  DANGER :=
    { min := 800, max := (⊤ : WithTop ℚ), color := "#F44336"
      bgColor := "rgba(244, 67, 54, 0.1)", label := "Danger", labelDE := "Gefahr"
      icon := "⚡", description := "Hochwassergefahr - Extreme Vorsicht!" }

/-- `getAlertLevel`: compare against `NORMAL.max` then `WARNING.max`. -/
def getAlertLevel (waterLevel : ℚ) : AlertLevel :=
  if ((waterLevel : WithTop ℚ) < ALERT_LEVELS.NORMAL.max) then ALERT_LEVELS.NORMAL
  else if ((waterLevel : WithTop ℚ) < ALERT_LEVELS.WARNING.max) then ALERT_LEVELS.WARNING
  else ALERT_LEVELS.DANGER

/-! ### Helper lemmas about characters and scanning -/

/-- A digit is none of the comma, dot, sign and exponent marker characters. -/
theorem digit_ne (c x : Char) (h : c.isDigit = true) (hx : x.isDigit = false) :
    ¬ c = x :=
  fun heq => by rw [heq, hx] at h; cases h

/-- A digit is not JavaScript whitespace. -/
theorem digit_not_space (c : Char) (h : c.isDigit = true) : isJsSpace c = false := by
  cases hs : isJsSpace c
  · rfl
  · exfalso
    simp only [isJsSpace, Bool.or_eq_true, beq_iff_eq] at hs
    rcases hs with ((((((hx | hx) | hx) | hx) | hx) | hx) | hx) <;>
      (subst hx; exact absurd h (by decide))

/-- `takeWhile` across an append whose left part satisfies the test and whose
first right element fails it. -/
theorem takeWhile_append_neg {p : Char → Bool} {l : List Char} {x : Char}
    (rest : List Char) (hl : ∀ c ∈ l, p c = true) (hx : p x = false) :
    (l ++ x :: rest).takeWhile p = l := by
  induction l with
  | nil => simp [List.takeWhile_cons, hx]
  | cons a t ih =>
    have ha := hl a (List.mem_cons_self a t)
    simp [List.takeWhile_cons, ha, ih (fun c hc => hl c (List.mem_cons_of_mem a hc))]

/-- `dropWhile` across the same split. -/
theorem dropWhile_append_neg {p : Char → Bool} {l : List Char} {x : Char}
    (rest : List Char) (hl : ∀ c ∈ l, p c = true) (hx : p x = false) :
    (l ++ x :: rest).dropWhile p = x :: rest := by
  induction l with
  | nil => simp [List.dropWhile_cons, hx]
  | cons a t ih =>
    have ha := hl a (List.mem_cons_self a t)
    simp [List.dropWhile_cons, ha, ih (fun c hc => hl c (List.mem_cons_of_mem a hc))]

/-- `takeWhile` keeps a list every element of which passes the test. -/
theorem takeWhile_eq_self_of_all {p : Char → Bool} {l : List Char}
    (hl : ∀ c ∈ l, p c = true) : l.takeWhile p = l := by
  induction l with
  | nil => rfl
  | cons a t ih =>
    have ha := hl a (List.mem_cons_self a t)
    simp [List.takeWhile_cons, ha, ih (fun c hc => hl c (List.mem_cons_of_mem a hc))]

/-- `dropWhile` drops a list every element of which passes the test. -/
theorem dropWhile_eq_nil_of_all {p : Char → Bool} {l : List Char}
    (hl : ∀ c ∈ l, p c = true) : l.dropWhile p = [] := by
  induction l with
  | nil => rfl
  | cons a t ih =>
    have ha := hl a (List.mem_cons_self a t)
    simp [List.dropWhile_cons, ha, ih (fun c hc => hl c (List.mem_cons_of_mem a hc))]

/-- `dropWhile` keeps a list no element of which passes the test. -/
theorem dropWhile_eq_self_of_none {p : Char → Bool} {l : List Char}
    (hl : ∀ c ∈ l, p c = false) : l.dropWhile p = l := by
  cases l with
  | nil => rfl
  | cons a t => simp [List.dropWhile_cons, hl a (List.mem_cons_self a t)]

/-- Trimming a string with no whitespace anywhere is the identity. -/
theorem jsTrim_eq_self {l : List Char} (hl : ∀ c ∈ l, isJsSpace c = false) :
    jsTrim l = l := by
  unfold jsTrim
  rw [dropWhile_eq_self_of_none hl,
    dropWhile_eq_self_of_none (fun c hc => hl c (List.mem_reverse.mp hc)),
    List.reverse_reverse]

/-- Trimming an all-whitespace string empties it. -/
theorem jsTrim_all_space {l : List Char} (hl : ∀ c ∈ l, isJsSpace c = true) :
    jsTrim l = [] := by
  unfold jsTrim
  rw [dropWhile_eq_nil_of_all hl]
  rfl

/-- The first-comma replacement across digits. -/
theorem replaceFirstComma_append {ds : List Char} (fs : List Char)
    (hd : ∀ c ∈ ds, c.isDigit = true) :
    replaceFirstComma (ds ++ ',' :: fs) = ds ++ '.' :: fs := by
  induction ds with
  | nil => simp [replaceFirstComma]
  | cons a t ih =>
    have ha := hd a (List.mem_cons_self a t)
    simp only [List.cons_append, replaceFirstComma, List.append_eq]
    rw [if_neg (digit_ne a ',' ha (by decide)),
      ih (fun c hc => hd c (List.mem_cons_of_mem a hc))]

/-- The parseFloat model on a digits-dot-digits list: the exact scaled
decimal.  `fs` may be empty (for example `"3."`). -/
theorem parseFloatQ_digits {ds fs : List Char} (hne : ds ≠ [])
    (hd : ∀ c ∈ ds, c.isDigit = true) (hf : ∀ c ∈ fs, c.isDigit = true) :
    parseFloatQ (ds ++ '.' :: fs) =
      some ((digitsToNat ds : ℚ) + (digitsToNat fs : ℚ) / (10 : ℚ) ^ fs.length) := by
  obtain ⟨a, t, rfl⟩ : ∃ a t, ds = a :: t := by
    cases ds with
    | nil => exact absurd rfl hne
    | cons a t => exact ⟨a, t, rfl⟩
  have ha : a.isDigit = true := hd a (List.mem_cons_self a t)
  have hnospace : ∀ c ∈ (a :: t) ++ '.' :: fs, isJsSpace c = false := by
    intro c hc
    rcases List.mem_append.mp hc with h | h
    · exact digit_not_space c (hd c h)
    · rcases List.mem_cons.mp h with rfl | h2
      · decide
      · exact digit_not_space c (hf c h2)
  have h1 : ((a :: t) ++ '.' :: fs).dropWhile isJsSpace = (a :: t) ++ '.' :: fs :=
    dropWhile_eq_self_of_none hnospace
  have h3 : ((a :: t) ++ '.' :: fs).takeWhile Char.isDigit = a :: t :=
    takeWhile_append_neg fs hd (by decide)
  have h4 : ((a :: t) ++ '.' :: fs).dropWhile Char.isDigit = '.' :: fs :=
    dropWhile_append_neg fs hd (by decide)
  have h5 : fs.takeWhile Char.isDigit = fs := takeWhile_eq_self_of_all hf
  have h6 : fs.dropWhile Char.isDigit = [] := dropWhile_eq_nil_of_all hf
  have hsgn : ¬ ((a :: t) ++ '.' :: fs).head? = some '-' := by
    simp only [List.cons_append, List.head?_cons, Option.some.injEq]
    exact digit_ne a '-' ha (by decide)
  have hplus : ¬ ((a :: t) ++ '.' :: fs).head? = some '+' := by
    simp only [List.cons_append, List.head?_cons, Option.some.injEq]
    exact digit_ne a '+' ha (by decide)
  have hl2 : ¬ (((a :: t) ++ '.' :: fs).head? = some '-' ∨
      ((a :: t) ++ '.' :: fs).head? = some '+') := by
    intro hor
    rcases hor with h2 | h2
    · exact hsgn h2
    · exact hplus h2
  have hdot : ('.' :: fs).head? = some '.' := rfl
  have hguard : ¬ ((a :: t) = [] ∧ fs = []) :=
    fun hand => absurd hand.1 (List.cons_ne_nil a t)
  have hexp : ¬ (([] : List Char).head? = some 'e' ∨
      ([] : List Char).head? = some 'E') := by simp
  simp only [parseFloatQ]
  rw [h1]
  rw [if_neg hsgn]
  rw [if_neg hl2]
  rw [h3, h4]
  rw [if_pos hdot]
  rw [if_pos hdot]
  rw [List.tail_cons]
  rw [h5, h6]
  rw [if_neg hguard]
  rw [if_neg hexp]
  rw [zpow_zero, mul_one, one_mul]

/-- Rounding an integer leaves it unchanged. -/
theorem jsRound_intCast (n : Int) : jsRound ((n : ℚ)) = n := by
  unfold jsRound
  rw [show ((n : ℚ) + 1 / 2) = (n : ℚ) + (1 / 2 : ℚ) from rfl, Int.floor_int_add]
  have h0 : ⌊(1 / 2 : ℚ)⌋ = 0 := by
    rw [Int.floor_eq_zero_iff]
    constructor <;> norm_num
  rw [h0, add_zero]

/-- `convertGermanDecimal` on a well-shaped German decimal string: round the
scaled exact value.  Covers any digit shapes, among them the
`<integer>,<2-digit-fraction>` pattern and laxer ones such as `"3,6"`. -/
theorem convertGermanDecimal_eq {s : String} {ds fs : List Char}
    (hs : s.data = ds ++ ',' :: fs) (hne : ds ≠ [])
    (hd : ∀ c ∈ ds, c.isDigit = true) (hf : ∀ c ∈ fs, c.isDigit = true) :
    convertGermanDecimal s = Except.ok (jsRound
      (((digitsToNat ds : ℚ) + (digitsToNat fs : ℚ) / (10 : ℚ) ^ fs.length) * 100)) := by
  have hnospace : ∀ c ∈ ds ++ ',' :: fs, isJsSpace c = false := by
    intro c hc
    rcases List.mem_append.mp hc with h | h
    · exact digit_not_space c (hd c h)
    · rcases List.mem_cons.mp h with rfl | h2
      · decide
      · exact digit_not_space c (hf c h2)
  unfold convertGermanDecimal
  rw [hs, jsTrim_eq_self hnospace, replaceFirstComma_append fs hd,
    parseFloatQ_digits hne hd hf]

/-- A failing `convertGermanDecimal` always reports the number-format error. -/
theorem convertGermanDecimal_error {s : String} {e : ParseErr}
    (h : convertGermanDecimal s = Except.error e) : e = ParseErr.invalidNumber := by
  unfold convertGermanDecimal at h
  cases hpf : parseFloatQ (replaceFirstComma (jsTrim s.data)) with
  | none => rw [hpf] at h; exact (Except.error.injEq _ _).mp h.symm
  | some q => rw [hpf] at h; exact absurd h (by simp)

/-- Shared concrete conversion: the reference value of the spec. -/
theorem convert368 : convertGermanDecimal "3,68" = Except.ok 368 := by
  rw [@convertGermanDecimal_eq "3,68" ['3'] ['6', '8']
    (by decide) (by decide) (by decide) (by decide)]
  congr 1
  have h1 : digitsToNat ['3'] = 3 := by decide
  have h2 : digitsToNat ['6', '8'] = 68 := by decide
  rw [h1, h2]
  unfold jsRound
  norm_num

/-- Claim C2.  For every valid German decimal string "D,FF" the conversion
returns round(D.FF · 100) — comma to dot, parse, scale by 100, round half
up — which equals the integer 100·D + FF; no range rejection occurs (the
statement holds for every magnitude of D). -/
theorem claim_C2_convert (s : String) (ds fs : List Char)
    (hs : s.data = ds ++ ',' :: fs) (hne : ds ≠ [])
    (hd : ∀ c ∈ ds, c.isDigit = true) (hlen : fs.length = 2)
    (hf : ∀ c ∈ fs, c.isDigit = true) :
    convertGermanDecimal s =
      Except.ok ((100 * digitsToNat ds + digitsToNat fs : Nat) : Int) ∧
    ((100 * digitsToNat ds + digitsToNat fs : Nat) : Int) =
      jsRound (((digitsToNat ds : ℚ) + (digitsToNat fs : ℚ) / 100) * 100) := by
  have hval2 : ((digitsToNat ds : ℚ) + (digitsToNat fs : ℚ) / 100) * 100 =
      (((100 * digitsToNat ds + digitsToNat fs : Nat) : Int) : ℚ) := by
    push_cast
    field_simp
    ring
  have hval : ((digitsToNat ds : ℚ) + (digitsToNat fs : ℚ) / (10 : ℚ) ^ fs.length) * 100 =
      (((100 * digitsToNat ds + digitsToNat fs : Nat) : Int) : ℚ) := by
    rw [hlen, show ((10 : ℚ) ^ (2 : ℕ)) = 100 by norm_num]
    exact hval2
  constructor
  · rw [convertGermanDecimal_eq hs hne hd hf, hval, jsRound_intCast]
  · rw [hval2, jsRound_intCast]

/-- Witness for claim C2 at "3,68", "0,00" and the out-of-range "25,00". -/
theorem claim_C2_convert_witness :
    ("3,68".data = ['3'] ++ ',' :: ['6', '8']) ∧
    ((100 * digitsToNat ['3'] + digitsToNat ['6', '8'] : Nat) : Int) = 368 ∧
    convertGermanDecimal "3,68" =
      Except.ok ((100 * digitsToNat ['3'] + digitsToNat ['6', '8'] : Nat) : Int) ∧
    convertGermanDecimal "0,00" =
      Except.ok ((100 * digitsToNat ['0'] + digitsToNat ['0', '0'] : Nat) : Int) ∧
    convertGermanDecimal "25,00" =
      Except.ok ((100 * digitsToNat ['2', '5'] + digitsToNat ['0', '0'] : Nat) : Int) :=
  ⟨by decide, by decide,
   (claim_C2_convert "3,68" ['3'] ['6', '8'] (by decide) (by decide) (by decide)
     (by decide) (by decide)).1,
   (claim_C2_convert "0,00" ['0'] ['0', '0'] (by decide) (by decide) (by decide)
     (by decide) (by decide)).1,
   (claim_C2_convert "25,00" ['2', '5'] ['0', '0'] (by decide) (by decide) (by decide)
     (by decide) (by decide)).1⟩

/-! ### Claims C5, C6 and C7 about the parser's error behaviour -/

/-- Claim C5, amended.  Date and time fields that fail format validation do
not make the parse fail: `parseGermanDateTime` catches its own errors and
falls back to the current time (no regex match for the date, an unrecognized
month name, no regex match for the time), and `parseXMLResponse` can fail
only with the missing-fields or number-format errors — the date and time
format errors are unreachable from it. -/
theorem claim_C5_date_fallback :
    (∀ (dateStr timeStr : String) (env : JsDateEnv),
      searchDate dateStr.data = none →
      parseGermanDateTime dateStr timeStr env = env.now) ∧
    (∀ (dateStr timeStr : String) (env : JsDateEnv) (d m y : List Char),
      searchDate dateStr.data = some (d, m, y) →
      monthLookup (String.mk m) = none → ¬ String.mk m ∈ protoObjectKeys →
      parseGermanDateTime dateStr timeStr env = env.now) ∧
    (∀ (dateStr timeStr : String) (env : JsDateEnv),
      searchTime timeStr.data = none →
      parseGermanDateTime dateStr timeStr env = env.now) ∧
    (∀ (doc : XmlDoc) (env : JsDateEnv) (e : ParseErr),
      parseXMLResponse doc env = Except.error e →
      e = ParseErr.missingFields ∨ e = ParseErr.invalidNumber) := by
  refine ⟨?_, ?_, ?_, ?_⟩
  · intro dateStr timeStr env h
    unfold parseGermanDateTime parseGermanDateTimeCore
    rw [h]
  · intro dateStr timeStr env d m y h1 h2 _
    unfold parseGermanDateTime parseGermanDateTimeCore
    rw [h1]
    dsimp only
    rw [h2]
  · intro dateStr timeStr env h
    unfold parseGermanDateTime parseGermanDateTimeCore
    cases h1 : searchDate dateStr.data with
    | none => rfl
    | some trip =>
      obtain ⟨d, m, y⟩ := trip
      dsimp only
      cases h2 : monthLookup (String.mk m) with
      | none => rfl
      | some mo =>
        dsimp only
        rw [h]
  · intro doc env e h
    obtain ⟨od, ou, op, og⟩ := doc
    cases od with
    | none =>
      unfold parseXMLResponse at h
      injection h with h2
      exact Or.inl h2.symm
    | some datum =>
      cases ou with
      | none =>
        unfold parseXMLResponse at h
        injection h with h2
        exact Or.inl h2.symm
      | some uhrzeit =>
        cases op with
        | none =>
          unfold parseXMLResponse at h
          injection h with h2
          exact Or.inl h2.symm
        | some pegel =>
          unfold parseXMLResponse at h
          dsimp only at h
          by_cases hcond : datum = "" ∨ uhrzeit = "" ∨ pegel = ""
          · rw [if_pos hcond] at h
            injection h with h2
            exact Or.inl h2.symm
          · rw [if_neg hcond] at h
            cases hc : convertGermanDecimal pegel with
            | error e2 =>
              rw [hc] at h
              dsimp only at h
              injection h with h2
              refine Or.inr ?_
              rw [← h2]
              exact convertGermanDecimal_error hc
            | ok w =>
              rw [hc] at h
              dsimp only at h
              exact absurd h (by simp)

/-- Environment of the C5 scenarios: a constant date constructor and
`Date.now()` equal to 999. -/
def envC5 : JsDateEnv := { mkTime := fun _ _ _ _ _ => 0, now := 999 }

/-- Counterexample to claim C5 as stated: with the date field "banana" —
which matches no date pattern — the parse does not fail with a date error;
it returns a Reading whose timestamp is the current time. -/
theorem claim_C5_counterexample :
    searchDate "banana".data = none ∧
    parseXMLResponse { datum := some "banana", uhrzeit := some "15:25",
                       pegel := some "3,68", grafik := none } envC5 =
      Except.ok { waterLevel := 368, date := "banana", time := "15:25",
                  timestamp := 999, graphic := none } := by
  refine ⟨by decide, ?_⟩
  unfold parseXMLResponse
  dsimp only
  rw [if_neg (by decide), convert368]
  dsimp only
  refine congrArg Except.ok ?_
  decide

/-- Witness for claim C5 (amended) at an unrecognized month name. -/
theorem claim_C5_date_fallback_witness :
    searchDate "1. Banane 2025".data =
      some (['1'], ['B', 'a', 'n', 'a', 'n', 'e'], ['2', '0', '2', '5']) ∧
    monthLookup (String.mk ['B', 'a', 'n', 'a', 'n', 'e']) = none ∧
    ¬ String.mk ['B', 'a', 'n', 'a', 'n', 'e'] ∈ protoObjectKeys ∧
    parseGermanDateTime "1. Banane 2025" "15:25" envC5 = envC5.now :=
  ⟨by decide, by decide, by decide,
   claim_C5_date_fallback.2.1 "1. Banane 2025" "15:25" envC5
     ['1'] ['B', 'a', 'n', 'a', 'n', 'e'] ['2', '0', '2', '5']
     (by decide) (by decide) (by decide)⟩

/-- Claim C6, amended.  The number-format failure happens exactly when the
level field, after trimming and first-comma-to-dot replacement, has no
parseable numeric prefix (parseFloat yields NaN); a level with a parseable
prefix converts to round(parsed · 100) even when it does not match the
`<integer>,<2-digit-fraction>` pattern. -/
theorem claim_C6_number_error :
    (∀ s : String,
      convertGermanDecimal s = Except.error ParseErr.invalidNumber ↔
        parseFloatQ (replaceFirstComma (jsTrim s.data)) = none) ∧
    (∀ (s : String) (q : ℚ),
      parseFloatQ (replaceFirstComma (jsTrim s.data)) = some q →
      convertGermanDecimal s = Except.ok (jsRound (q * 100))) ∧
    (∀ (datum uhrzeit pegel : String) (g : Option String) (env : JsDateEnv),
      ¬ datum = "" → ¬ uhrzeit = "" → ¬ pegel = "" →
      (parseXMLResponse { datum := some datum, uhrzeit := some uhrzeit,
                          pegel := some pegel, grafik := g } env =
          Except.error ParseErr.invalidNumber ↔
        parseFloatQ (replaceFirstComma (jsTrim pegel.data)) = none)) := by
  have hconv : ∀ s : String,
      convertGermanDecimal s = Except.error ParseErr.invalidNumber ↔
        parseFloatQ (replaceFirstComma (jsTrim s.data)) = none := by
    intro s
    unfold convertGermanDecimal
    cases hpf : parseFloatQ (replaceFirstComma (jsTrim s.data)) with
    | none => simp
    | some q => simp
  refine ⟨hconv, ?_, ?_⟩
  · intro s q hpf
    unfold convertGermanDecimal
    rw [hpf]
  · intro datum uhrzeit pegel g env hd hu hp
    unfold parseXMLResponse
    dsimp only
    rw [if_neg (by
      intro hor
      rcases hor with h | h | h
      exacts [hd h, hu h, hp h])]
    cases hc : convertGermanDecimal pegel with
    | error e2 =>
      have he := convertGermanDecimal_error hc
      subst he
      dsimp only
      rw [iff_true_intro rfl, true_iff]
      exact (hconv pegel).mp hc
    | ok w =>
      dsimp only
      constructor
      · intro habs
        exact absurd habs (by simp)
      · intro hnone
        have := (hconv pegel).mpr hnone
        rw [hc] at this
        exact absurd this (by simp)

/-- Environment of the C6 scenario. -/
def envC6 : JsDateEnv := { mkTime := fun _ _ _ _ _ => 0, now := 555 }

/-- Counterexample to claim C6 as stated: the level "3,6" does not match the
`<integer>,<2-digit-fraction>` pattern, yet the parse succeeds and yields
360 cm. -/
theorem claim_C6_counterexample :
    parseXMLResponse { datum := some "27. Oktober 2025", uhrzeit := some "15:25",
                       pegel := some "3,6", grafik := none } envC6 =
      Except.ok { waterLevel := 360, date := "27. Oktober 2025", time := "15:25",
                  timestamp := 0, graphic := none } := by
  have hconv : convertGermanDecimal "3,6" = Except.ok 360 := by
    rw [@convertGermanDecimal_eq "3,6" ['3'] ['6']
      (by decide) (by decide) (by decide) (by decide)]
    congr 1
    have h1 : digitsToNat ['3'] = 3 := by decide
    have h2 : digitsToNat ['6'] = 6 := by decide
    rw [h1, h2]
    unfold jsRound
    norm_num
  unfold parseXMLResponse
  dsimp only
  rw [if_neg (by decide), hconv]
  dsimp only
  refine congrArg Except.ok ?_
  decide

/-- Witness for claim C6 (amended) at a level with no parseable prefix. -/
theorem claim_C6_number_error_witness :
    parseFloatQ (replaceFirstComma (jsTrim "abc".data)) = none ∧
    (parseXMLResponse { datum := some "1. Januar 2025", uhrzeit := some "9:05",
                        pegel := some "abc", grafik := none } envC6 =
        Except.error ParseErr.invalidNumber ↔
      parseFloatQ (replaceFirstComma (jsTrim "abc".data)) = none) :=
  ⟨by decide,
   claim_C6_number_error.2.2 "1. Januar 2025" "9:05" "abc" none envC6
     (by decide) (by decide) (by decide)⟩

/-- Claim C7, amended.  The missing-fields failure happens exactly when one
of the three required fields is absent or the empty string — the check is
the JavaScript falsy test, applied before any trimming — and a whitespace-only
level fails later with the number-format error instead (a whitespace-only
date or time field is accepted; see the counterexample). -/
theorem claim_C7_missing_fields :
    (∀ (doc : XmlDoc) (env : JsDateEnv),
      parseXMLResponse doc env = Except.error ParseErr.missingFields ↔
        (doc.datum = none ∨ doc.datum = some "") ∨
        (doc.uhrzeit = none ∨ doc.uhrzeit = some "") ∨
        (doc.pegel = none ∨ doc.pegel = some "")) ∧
    (∀ (datum uhrzeit pegel : String) (g : Option String) (env : JsDateEnv),
      ¬ datum = "" → ¬ uhrzeit = "" → ¬ pegel = "" →
      (∀ c ∈ pegel.data, isJsSpace c = true) →
      parseXMLResponse { datum := some datum, uhrzeit := some uhrzeit,
                         pegel := some pegel, grafik := g } env =
        Except.error ParseErr.invalidNumber) := by
  constructor
  · intro doc env
    obtain ⟨od, ou, op, og⟩ := doc
    cases od with
    | none => simp [parseXMLResponse]
    | some datum =>
      cases ou with
      | none => simp [parseXMLResponse]
      | some uhrzeit =>
        cases op with
        | none => simp [parseXMLResponse]
        | some pegel =>
          by_cases hcond : datum = "" ∨ uhrzeit = "" ∨ pegel = ""
          · unfold parseXMLResponse
            dsimp only
            rw [if_pos hcond]
            simpa using hcond
          · unfold parseXMLResponse
            dsimp only
            rw [if_neg hcond]
            cases hc : convertGermanDecimal pegel with
            | error e2 =>
              have he := convertGermanDecimal_error hc
              subst he
              dsimp only
              constructor
              · intro habs
                injection habs with h2
                exact absurd h2.symm (by decide)
              · intro hor
                exact absurd (by simpa using hor) hcond
            | ok w =>
              dsimp only
              constructor
              · intro habs
                exact absurd habs (by simp)
              · intro hor
                exact absurd (by simpa using hor) hcond
  · intro datum uhrzeit pegel g env hd hu hp hsp
    unfold parseXMLResponse
    dsimp only
    rw [if_neg (by
      intro hor
      rcases hor with h | h | h
      exacts [hd h, hu h, hp h])]
    have htrim : jsTrim pegel.data = [] := jsTrim_all_space hsp
    have hpf : parseFloatQ (replaceFirstComma (jsTrim pegel.data)) = none := by
      rw [htrim]
      rfl
    have hc : convertGermanDecimal pegel = Except.error ParseErr.invalidNumber := by
      unfold convertGermanDecimal
      rw [hpf]
    rw [hc]

/-- Environment of the C7 scenarios. -/
def envC7 : JsDateEnv := { mkTime := fun _ _ _ _ _ => 0, now := 777 }

/-- Counterexample to claim C7 as stated: a whitespace-only Datum element is
not rejected — the falsy check sees a nonempty string, and the parse
succeeds with an empty trimmed date and the fallback timestamp. -/
theorem claim_C7_counterexample :
    parseXMLResponse { datum := some "   ", uhrzeit := some "15:25",
                       pegel := some "3,68", grafik := none } envC7 =
      Except.ok { waterLevel := 368, date := "", time := "15:25",
                  timestamp := 777, graphic := none } := by
  unfold parseXMLResponse
  dsimp only
  rw [if_neg (by decide), convert368]
  dsimp only
  refine congrArg Except.ok ?_
  decide

/-- Witness for claim C7 (amended): a whitespace-only Pegel element fails
with the number-format error, not the missing-fields one. -/
theorem claim_C7_missing_fields_witness :
    (¬ ("x" : String) = "") ∧ (∀ c ∈ "   ".data, isJsSpace c = true) ∧
    parseXMLResponse { datum := some "x", uhrzeit := some "y",
                       pegel := some "   ", grafik := none } envC7 =
      Except.error ParseErr.invalidNumber :=
  ⟨by decide, by decide,
   claim_C7_missing_fields.2 "x" "y" "   " none envC7
     (by decide) (by decide) (by decide) (by decide)⟩

/-! ### Helper lemmas about the store -/

/-- Every structure `getStorageData` returns carries the current schema
version. -/
theorem getStorageData_version (slot : StorageSlot) :
    (getStorageData slot).version = storageVersion := by
  cases slot with
  | absent => rfl
  | malformed => rfl
  | value s =>
    by_cases h : s.version = storageVersion
    · simp [getStorageData, h]
    · simp [getStorageData, h, createEmptyStorage]

/-- Reading back a slot persisted with the current version returns it as
written. -/
theorem getStorageData_value (s : StorageData) (h : s.version = storageVersion) :
    getStorageData (StorageSlot.value s) = s := by
  simp [getStorageData, h]

/-- The descending sort permutes its input. -/
theorem sortDesc_perm (l : List StoredReading) : List.Perm (sortDesc l) l :=
  List.perm_insertionSort tsGe l

/-- The descending sort sorts. -/
theorem sortDesc_sorted (l : List StoredReading) : List.Sorted tsGe (sortDesc l) :=
  List.sorted_insertionSort tsGe l

/-- The ascending sort permutes its input. -/
theorem sortAsc_perm (l : List StoredReading) : List.Perm (sortAsc l) l :=
  List.perm_insertionSort tsLe l

/-- The ascending sort sorts. -/
theorem sortAsc_sorted (l : List StoredReading) : List.Sorted tsLe (sortAsc l) :=
  List.sorted_insertionSort tsLe l

/-- Cleaning a freshly persisted structure filters its readings by the age
cutoff and keeps the rest of the structure. -/
theorem cleanOldData_value (now : Int) (s : StorageData) (h : s.version = storageVersion) :
    getStorageData (cleanOldData now (StorageSlot.value s)) =
      { version := s.version,
        readings := s.readings.filter (fun r => decide (now - maxAge ≤ r.timestamp)),
        lastUpdated := s.lastUpdated } := by
  unfold cleanOldData
  dsimp only
  rw [getStorageData_value s h]
  exact getStorageData_value _ (by exact h)

/-- What a `saveReading` call leaves in the store: the pushed list, sorted
newest first, cut to `maxEntries`, then cleaned by the age cutoff. -/
theorem saveReading_spec (data : Reading) (now : Int) (slot : StorageSlot) :
    (getStorageData (saveReading data now slot).2).readings =
      (if maxEntries < (sortDesc ((getStorageData slot).readings ++ [toStored data])).length
       then (sortDesc ((getStorageData slot).readings ++ [toStored data])).take maxEntries
       else sortDesc ((getStorageData slot).readings ++ [toStored data])).filter
        (fun r => decide (now - maxAge ≤ r.timestamp)) := by
  have hv : (getStorageData slot).version = storageVersion := getStorageData_version slot
  unfold saveReading
  dsimp only
  rw [cleanOldData_value now _ (by exact hv)]

/-- Claim C3.  After any sequence of saveReading calls the persisted store
holds at most 1440 readings, kept sorted descending by timestamp (this is
shown for one call from an arbitrary prior slot, hence holds after every
nonempty sequence); inserting into a full store of 1440 entries evicts
exactly one entry, one whose timestamp is a minimum of the pushed list. -/
theorem claim_C3_bounded_store (data : Reading) (now : Int) (slot : StorageSlot) :
    (getStorageData (saveReading data now slot).2).readings.length ≤ maxEntries ∧
    List.Sorted tsGe (getStorageData (saveReading data now slot).2).readings ∧
    ((getStorageData slot).readings.length = maxEntries →
      ((sortDesc ((getStorageData slot).readings ++ [toStored data])).drop maxEntries).length = 1 ∧
      (∀ e ∈ (sortDesc ((getStorageData slot).readings ++ [toStored data])).drop maxEntries,
        ∀ k ∈ (sortDesc ((getStorageData slot).readings ++ [toStored data])).take maxEntries,
          e.timestamp ≤ k.timestamp) ∧
      List.Perm (sortDesc ((getStorageData slot).readings ++ [toStored data]))
        ((getStorageData slot).readings ++ [toStored data]) ∧
      (getStorageData (saveReading data now slot).2).readings =
        ((sortDesc ((getStorageData slot).readings ++ [toStored data])).take maxEntries).filter
          (fun r => decide (now - maxAge ≤ r.timestamp))) := by
  have hspec := saveReading_spec data now slot
  have hperm := sortDesc_perm ((getStorageData slot).readings ++ [toStored data])
  have hsorted := sortDesc_sorted ((getStorageData slot).readings ++ [toStored data])
  have hlen : (sortDesc ((getStorageData slot).readings ++ [toStored data])).length =
      (getStorageData slot).readings.length + 1 := by
    rw [hperm.length_eq, List.length_append, List.length_singleton]
  refine ⟨?_, ?_, ?_⟩
  · rw [hspec]
    by_cases hbig :
        maxEntries < (sortDesc ((getStorageData slot).readings ++ [toStored data])).length
    · rw [if_pos hbig]
      calc (List.filter _ _).length
          ≤ ((sortDesc ((getStorageData slot).readings ++ [toStored data])).take
              maxEntries).length := List.length_filter_le _ _
        _ ≤ maxEntries := by rw [List.length_take]; exact min_le_left _ _
    · rw [if_neg hbig]
      exact le_trans (List.length_filter_le _ _) (not_lt.mp hbig)
  · rw [hspec]
    by_cases hbig :
        maxEntries < (sortDesc ((getStorageData slot).readings ++ [toStored data])).length
    · rw [if_pos hbig]
      exact List.Pairwise.sublist
        ((List.filter_sublist _).trans (List.take_sublist _ _)) hsorted
    · rw [if_neg hbig]
      exact List.Pairwise.sublist (List.filter_sublist _) hsorted
  · intro hfull
    have hlen1 : (sortDesc ((getStorageData slot).readings ++ [toStored data])).length =
        maxEntries + 1 := by rw [hlen, hfull]
    refine ⟨?_, ?_, hperm, ?_⟩
    · rw [List.length_drop, hlen1]; omega
    · intro e he k hk
      have hp := hsorted
      rw [List.Sorted, ← List.take_append_drop maxEntries
        (sortDesc ((getStorageData slot).readings ++ [toStored data])),
        List.pairwise_append] at hp
      exact hp.2.2 k hk e he
    · rw [hspec, if_pos (by omega)]

/-- Claim C10.  An entry persisted by saveReading carries exactly the four
fields waterLevel, date, time and timestamp: the graphic field of the
fetched Reading never influences the store and never appears in what
getHistoricalData or getLatestReading return (their elements are entries of
the four-field store). -/
theorem claim_C10_graphic_dropped :
    (∀ r : Reading, toStored r =
      { waterLevel := r.waterLevel, date := r.date, time := r.time,
        timestamp := r.timestamp }) ∧
    (∀ (r : Reading) (g : Option String) (now : Int) (slot : StorageSlot),
      saveReading { r with graphic := g } now slot = saveReading r now slot) ∧
    (∀ (r : Reading) (now : Int) (slot : StorageSlot) (e : StoredReading),
      e ∈ (getStorageData (saveReading r now slot).2).readings →
      e ∈ (getStorageData slot).readings ∨ e = toStored r) ∧
    (∀ (hours : Int) (now : Int) (slot : StorageSlot) (e : StoredReading),
      e ∈ getHistoricalData hours now slot → e ∈ (getStorageData slot).readings) ∧
    (∀ (slot : StorageSlot) (e : StoredReading),
      getLatestReading slot = some e → e ∈ (getStorageData slot).readings) := by
  refine ⟨fun r => rfl, fun r g now slot => rfl, ?_, ?_, ?_⟩
  · intro r now slot e he
    rw [saveReading_spec] at he
    have he2 := (List.filter_sublist _).subset he
    have he3 : e ∈ sortDesc ((getStorageData slot).readings ++ [toStored r]) := by
      by_cases hbig :
          maxEntries < (sortDesc ((getStorageData slot).readings ++ [toStored r])).length
      · rw [if_pos hbig] at he2; exact List.take_subset _ _ he2
      · rwa [if_neg hbig] at he2
    have he4 := (sortDesc_perm _).subset he3
    rcases List.mem_append.mp he4 with h | h
    · exact Or.inl h
    · exact Or.inr (List.mem_singleton.mp h)
  · intro hours now slot e he
    unfold getHistoricalData at he
    have := (sortAsc_perm _).subset he
    exact (List.filter_sublist _).subset this
  · intro slot e he
    unfold getLatestReading at he
    exact List.mem_of_mem_head? he

/-- Membership in a window query: exactly the stored readings at or after
the cutoff. -/
theorem getHistoricalData_mem (hours : Int) (now : Int) (slot : StorageSlot)
    (e : StoredReading) :
    e ∈ getHistoricalData hours now slot ↔
      e ∈ (getStorageData slot).readings ∧
        now - hours * (60 * 60 * 1000) ≤ e.timestamp := by
  unfold getHistoricalData
  rw [(sortAsc_perm _).mem_iff, List.mem_filter, decide_eq_true_iff]

/-- Claim C4, amended.  getHistoricalData(hours) returns exactly the stored
readings with timestamp at least now minus hours·3600000 ms, sorted
ascending; a reading just saved with a timestamp within the last 24 hours
appears in getHistoricalData(24) provided the save did not evict it under
the 1440-entry cap — in particular whenever the store held fewer than 1440
readings before the save. -/
theorem claim_C4_window_query :
    (∀ (hours : Int) (now : Int) (slot : StorageSlot),
      List.Perm (getHistoricalData hours now slot)
        ((getStorageData slot).readings.filter
          (fun r => decide (now - hours * (60 * 60 * 1000) ≤ r.timestamp)))) ∧
    (∀ (hours : Int) (now : Int) (slot : StorageSlot),
      List.Sorted tsLe (getHistoricalData hours now slot)) ∧
    (∀ (hours : Int) (now : Int) (slot : StorageSlot) (e : StoredReading),
      e ∈ getHistoricalData hours now slot ↔
        e ∈ (getStorageData slot).readings ∧
          now - hours * (60 * 60 * 1000) ≤ e.timestamp) ∧
    (∀ (r : Reading) (now : Int) (slot : StorageSlot),
      (getStorageData slot).readings.length < maxEntries →
      now - 24 * (60 * 60 * 1000) ≤ r.timestamp →
      toStored r ∈ getHistoricalData 24 now (saveReading r now slot).2) := by
  refine ⟨fun hours now slot => sortAsc_perm _, fun hours now slot => sortAsc_sorted _,
    getHistoricalData_mem, ?_⟩
  intro r now slot hsmall hts
  have hcut : now - maxAge ≤ r.timestamp := by
    simpa [maxAge] using hts
  rw [getHistoricalData_mem]
  refine ⟨?_, by simpa using hts⟩
  rw [saveReading_spec]
  have hnotbig :
      ¬ maxEntries < (sortDesc ((getStorageData slot).readings ++ [toStored r])).length := by
    rw [(sortDesc_perm _).length_eq, List.length_append, List.length_singleton]
    omega
  rw [if_neg hnotbig]
  refine List.mem_filter.mpr ⟨?_, ?_⟩
  · exact (sortDesc_perm _).mem_iff.mpr (List.mem_append_right _ (List.mem_singleton_self _))
  · simpa [toStored] using hcut

/-- Entry filling the full store of the C3 witness and the C4
counterexample. -/
def staleEntry : StoredReading :=
  { waterLevel := 0, date := "", time := "", timestamp := 100 }

/-- The persisted structure of the full store. -/
def fullData : StorageData :=
  { version := "1.0.0", readings := List.replicate 1440 staleEntry, lastUpdated := none }

/-- A store already holding `maxEntries` readings, all with timestamp 100. -/
def fullSlot : StorageSlot :=
  StorageSlot.value fullData

/-- Reading inserted into the full store. -/
def newReading : Reading :=
  { waterLevel := 1, date := "d", time := "t", timestamp := 100, graphic := none }

/-- The full store reads back as written. -/
theorem getStorageData_fullSlot : getStorageData fullSlot = fullData :=
  getStorageData_value fullData rfl

/-- The full store holds exactly `maxEntries` readings. -/
theorem fullSlot_length : (getStorageData fullSlot).readings.length = maxEntries := by
  rw [getStorageData_fullSlot]
  show (List.replicate 1440 staleEntry).length = maxEntries
  rw [List.length_replicate]
  rfl

/-- The pushed list of the full-store insertion is already sorted newest
first (every timestamp is 100), so the stable sort returns it unchanged —
with the pushed entry last. -/
theorem fullSlot_sortDesc :
    sortDesc ((getStorageData fullSlot).readings ++ [toStored newReading]) =
      List.replicate 1440 staleEntry ++ [toStored newReading] := by
  rw [getStorageData_fullSlot]
  show List.insertionSort tsGe _ = _
  apply List.Sorted.insertionSort_eq
  show List.Pairwise tsGe _
  rw [List.pairwise_append]
  refine ⟨List.pairwise_replicate.mpr (Or.inr (le_refl _)), List.pairwise_singleton _ _, ?_⟩
  intro x hx y hy
  rw [(List.mem_replicate.mp hx).2, List.mem_singleton.mp hy]
  exact le_refl _

/-- Witness for claim C3: inserting into a concrete full store of 1440
entries leaves the trimmed, cleaned list. -/
theorem claim_C3_bounded_store_witness :
    (getStorageData fullSlot).readings.length = maxEntries ∧
    (getStorageData (saveReading newReading 100 fullSlot).2).readings =
      ((sortDesc ((getStorageData fullSlot).readings ++ [toStored newReading])).take
          maxEntries).filter (fun r => decide ((100 : Int) - maxAge ≤ r.timestamp)) :=
  ⟨fullSlot_length,
   ((claim_C3_bounded_store newReading 100 fullSlot).2.2 fullSlot_length).2.2.2⟩

/-- Counterexample to claim C4 as stated: the reading `newReading`, saved at
`now = 100` with a timestamp well within the last 24 hours, does not appear
in getHistoricalData(24) — the store already held 1440 entries with the same
timestamp, the stable descending sort places the pushed entry last, and the
cap drops it. -/
theorem claim_C4_counterexample :
    ((100 : Int) - 24 * (60 * 60 * 1000) ≤ (toStored newReading).timestamp) ∧
    toStored newReading ∉ getHistoricalData 24 100 (saveReading newReading 100 fullSlot).2 := by
  refine ⟨by decide, fun hmem => ?_⟩
  rw [getHistoricalData_mem] at hmem
  obtain ⟨hin, _⟩ := hmem
  rw [saveReading_spec, fullSlot_sortDesc] at hin
  rw [if_pos (show maxEntries <
    (List.replicate 1440 staleEntry ++ [toStored newReading]).length by
      rw [List.length_append, List.length_replicate, List.length_singleton]; decide)] at hin
  rw [List.take_left'
    (show (List.replicate 1440 staleEntry).length = maxEntries by
      rw [List.length_replicate]; rfl)] at hin
  have hrep := (List.mem_filter.mp hin).1
  have heq := (List.mem_replicate.mp hrep).2
  exact absurd heq (by decide)

/-- Reading used by the C4 witness. -/
def queryReading : Reading :=
  { waterLevel := 5, date := "a", time := "b", timestamp := 50, graphic := none }

/-- Witness for claim C4 (amended): saving into a non-full store and querying
the last 24 hours returns the saved reading. -/
theorem claim_C4_window_query_witness :
    (getStorageData StorageSlot.absent).readings.length < maxEntries ∧
    ((50 : Int) - 24 * (60 * 60 * 1000) ≤ queryReading.timestamp) ∧
    toStored queryReading ∈
      getHistoricalData 24 50 (saveReading queryReading 50 StorageSlot.absent).2 :=
  ⟨by decide, by decide,
   claim_C4_window_query.2.2.2 queryReading 50 StorageSlot.absent (by decide) (by decide)⟩

/-- Reading used by the C10 witness (it carries a graphic). -/
def sampleReading10 : Reading :=
  { waterLevel := 42, date := "1. Januar 2025", time := "9:05",
    timestamp := 1000, graphic := some "grafik.png" }

/-- Witness for claim C10: the saved entry of a concrete reading is its
four-field projection. -/
theorem claim_C10_graphic_dropped_witness :
    toStored sampleReading10 ∈
      (getStorageData (saveReading sampleReading10 1000 StorageSlot.absent).2).readings ∧
    (toStored sampleReading10 ∈ (getStorageData StorageSlot.absent).readings ∨
      toStored sampleReading10 = toStored sampleReading10) :=
  ⟨by decide,
   claim_C10_graphic_dropped.2.2.1 sampleReading10 1000 StorageSlot.absent
     (toStored sampleReading10) (by decide)⟩

/-! ### Helper lemmas about the tiers -/

/-- The three tier records are pairwise distinct (their labels differ). -/
theorem alertLevels_distinct :
    ALERT_LEVELS.NORMAL ≠ ALERT_LEVELS.WARNING ∧
    ALERT_LEVELS.NORMAL ≠ ALERT_LEVELS.DANGER ∧
    ALERT_LEVELS.WARNING ≠ ALERT_LEVELS.DANGER := by
  refine ⟨fun h => ?_, fun h => ?_, fun h => ?_⟩ <;>
    · have := congrArg AlertLevel.label h
      simp [ALERT_LEVELS] at this

/-- Claim C1.  The classifier is a pure, total function on numeric levels:
for every level L it returns NORMAL iff L < 400, WARNING iff 400 ≤ L < 800,
and DANGER iff L ≥ 800; in particular classify(399) = NORMAL,
classify(400) = WARNING and classify(800) = DANGER. -/
theorem claim_C1_classifier :
    ∀ levelCm : ℚ,
      (getAlertLevel levelCm = ALERT_LEVELS.NORMAL ↔ levelCm < 400) ∧
      (getAlertLevel levelCm = ALERT_LEVELS.WARNING ↔ 400 ≤ levelCm ∧ levelCm < 800) ∧
      (getAlertLevel levelCm = ALERT_LEVELS.DANGER ↔ 800 ≤ levelCm) ∧
      getAlertLevel 399 = ALERT_LEVELS.NORMAL ∧
      getAlertLevel 400 = ALERT_LEVELS.WARNING ∧
      getAlertLevel 800 = ALERT_LEVELS.DANGER := by
  have hd := alertLevels_distinct
  have key : ∀ levelCm : ℚ,
      (getAlertLevel levelCm = ALERT_LEVELS.NORMAL ↔ levelCm < 400) ∧
      (getAlertLevel levelCm = ALERT_LEVELS.WARNING ↔ 400 ≤ levelCm ∧ levelCm < 800) ∧
      (getAlertLevel levelCm = ALERT_LEVELS.DANGER ↔ 800 ≤ levelCm) := by
    intro L
    have hnmax : ALERT_LEVELS.NORMAL.max = ((400 : ℚ) : WithTop ℚ) := rfl
    have hwmax : ALERT_LEVELS.WARNING.max = ((800 : ℚ) : WithTop ℚ) := rfl
    unfold getAlertLevel
    simp only [hnmax, hwmax, WithTop.coe_lt_coe]
    by_cases h1 : L < 400
    · rw [if_pos h1]
      refine ⟨⟨fun _ => h1, fun _ => rfl⟩, ⟨fun h => absurd h hd.1, ?_⟩,
        ⟨fun h => absurd h hd.2.1, ?_⟩⟩
      · rintro ⟨h4, _⟩; exact absurd h1 (not_lt.mpr h4)
      · intro h8; exact absurd h1 (not_lt.mpr (by linarith))
    · rw [if_neg h1]
      by_cases h2 : L < 800
      · rw [if_pos h2]
        refine ⟨⟨fun h => absurd h.symm hd.1, fun h => absurd h h1⟩,
          ⟨fun _ => ⟨not_lt.mp h1, h2⟩, fun _ => rfl⟩,
          ⟨fun h => absurd h hd.2.2, fun h8 => absurd h2 (not_lt.mpr h8)⟩⟩
      · rw [if_neg h2]
        refine ⟨⟨fun h => absurd h.symm hd.2.1, fun h => absurd h h1⟩,
          ⟨fun h => absurd h.symm hd.2.2, fun h => absurd h.2 h2⟩,
          ⟨fun _ => not_lt.mp h2, fun _ => rfl⟩⟩
  intro L
  refine ⟨(key L).1, (key L).2.1, (key L).2.2, ?_, ?_, ?_⟩
  · exact (key 399).1.mpr (by norm_num)
  · exact (key 400).2.1.mpr (by norm_num)
  · exact (key 800).2.2.mpr (by norm_num)

/-- Claim C9.  Loading a persisted store blob whose version field differs
from the current schema version yields an empty, freshly initialized store
(no readings, lastUpdated null) rather than an error or crash, for every
such blob. -/
theorem claim_C9_version_mismatch (s : StorageData)
    (h : s.version ≠ storageVersion) :
    getStorageData (StorageSlot.value s) = createEmptyStorage ∧
    createEmptyStorage.readings = [] ∧
    createEmptyStorage.lastUpdated = none := by
  refine ⟨?_, rfl, rfl⟩
  simp [getStorageData, h]

/-- The CORS-proxy latch never drops back to `false` inside the retry loop. -/
theorem fetchAttempts_latch_mono
    (transport : Nat → Bool → Except JsError Reading) :
    ∀ (fuel attempt : Nat) (e : JsError),
      (fetchAttempts transport fuel attempt true e).2 = true := by
  intro fuel
  induction fuel with
  | zero => intro attempt e; rfl
  | succ n ih =>
    intro attempt e
    unfold fetchAttempts
    cases transport attempt true with
    | ok data => rfl
    | error e2 =>
      simp only
      rw [if_neg (by simp)]
      exact ih (attempt + 1) e2

/-- Claim C8.  If the first attempt fails with an error the heuristic calls
cross-origin while the fallback is not engaged, the client latches the
fallback transport on for every later attempt and the latch never reverts
within the loop; a transport that fails twice with CORS-shaped errors and
then succeeds on the fallback path makes fetchCurrentLevel resolve with the
latch true. -/
theorem claim_C8_cors_latch :
    (∀ (transport : Nat → Bool → Except JsError Reading) (fuel attempt : Nat)
        (e : JsError), (fetchAttempts transport fuel attempt true e).2 = true) ∧
    (∀ (transport : Nat → Bool → Except JsError Reading) (e1 e2 : JsError)
        (r : Reading),
      transport 1 false = Except.error e1 → isCorsError e1 = true →
      transport 2 true = Except.error e2 →
      transport 3 true = Except.ok r →
      fetchCurrentLevel transport = (Except.ok r, true)) := by
  refine ⟨fetchAttempts_latch_mono, ?_⟩
  intro transport e1 e2 r h1 hc h2 h3
  unfold fetchCurrentLevel maxRetries
  unfold fetchAttempts
  rw [h1]
  dsimp only
  rw [if_pos (by exact ⟨hc, rfl, rfl⟩)]
  unfold fetchAttempts
  rw [h2]
  dsimp only
  rw [if_neg (by simp)]
  unfold fetchAttempts
  rw [h3]

/-- Transport used by the C8 witness: a CORS-shaped transport failure on the
first attempt, a CORS-shaped proxy failure on the second, success on the
third. -/
def corsScenarioTransport : Nat → Bool → Except JsError Reading :=
  fun attempt _ =>
    if attempt = 1 then Except.error { name := "TypeError", message := "Failed to fetch" }
    else if attempt = 2 then
      Except.error { name := "Error", message := "CORS policy blocked the request" }
    else
      Except.ok { waterLevel := 368, date := "27. Oktober 2025", time := "15:25",
                  timestamp := 1761575100000, graphic := none }

/-- Witness for claim C8: the scenario hypotheses hold of
`corsScenarioTransport` and the fetch resolves with the latch true. -/
theorem claim_C8_cors_latch_witness :
    corsScenarioTransport 1 false =
      Except.error { name := "TypeError", message := "Failed to fetch" } ∧
    isCorsError { name := "TypeError", message := "Failed to fetch" } = true ∧
    corsScenarioTransport 2 true =
      Except.error { name := "Error", message := "CORS policy blocked the request" } ∧
    corsScenarioTransport 3 true =
      Except.ok { waterLevel := 368, date := "27. Oktober 2025", time := "15:25",
                  timestamp := 1761575100000, graphic := none } ∧
    fetchCurrentLevel corsScenarioTransport =
      (Except.ok { waterLevel := 368, date := "27. Oktober 2025", time := "15:25",
                   timestamp := 1761575100000, graphic := none }, true) :=
  ⟨rfl, by decide, rfl, rfl,
   claim_C8_cors_latch.2 corsScenarioTransport
     { name := "TypeError", message := "Failed to fetch" }
     { name := "Error", message := "CORS policy blocked the request" }
     { waterLevel := 368, date := "27. Oktober 2025", time := "15:25",
       timestamp := 1761575100000, graphic := none }
     rfl (by decide) rfl rfl⟩

/-- Witness for claim C9 at a concrete mismatched blob. -/
theorem claim_C9_version_mismatch_witness :
    ({ version := "0.9.0",
       readings := [{ waterLevel := 512, date := "d", time := "t", timestamp := 77 }],
       lastUpdated := some 3 } : StorageData).version ≠ storageVersion ∧
    getStorageData (StorageSlot.value
      { version := "0.9.0",
        readings := [{ waterLevel := 512, date := "d", time := "t", timestamp := 77 }],
        lastUpdated := some 3 }) = createEmptyStorage :=
  ⟨by decide,
   (claim_C9_version_mismatch
     { version := "0.9.0",
       readings := [{ waterLevel := 512, date := "d", time := "t", timestamp := 77 }],
       lastUpdated := some 3 } (by decide)).1⟩

end RheinPegel
